import Mathlib

/-!
Shallow embedding of the `enough` cooperative-cancellation library.

The library is a family of token types sharing one trait (`Stop`), each
backed by one or more atomic-boolean flags, plus combinators (`OrStop`,
`WithTimeout`), a hierarchical tree (`TreeStopper`, `ChildSource`,
`ChildCancellationSource`), deadline-carrying tokens
(`CancellationSource` / `CancellationToken`) and a C FFI boundary
(`enough-ffi`).

Modelling choices:
- every atomic-boolean cell is identified by a `FlagId : Nat`; the mutable
  store of all cells, together with the current instant, is a `World`;
- reads (`check`, `should_stop`, `is_cancelled`) are pure functions of the
  `World`; writes (`cancel`, `reset`) are `World → World` functions;
- `Instant` is `Nat`; `Duration` is `Nat`; `saturating_duration_since` is
  truncated subtraction;
- `Result<(), StopReason>` is `Except StopReason Unit`;
- raw pointers that are documented as nullable are `Option`;
- sequences of mutating operations are explicit lists (`FlagOp`, `FfiOp`)
  folded over the `World`, which lets temporal claims (monotonicity, FFI
  survival) be stated about every reachable later state.
-/

set_option linter.unusedVariables false

/-- Identifier of one atomic-boolean cell (the address of one AtomicBool). -/
abbrev FlagId := Nat

/-- The mutable state every operation of the library can touch: the value of
every atomic-boolean flag cell, plus the current instant for deadline
checks. -/
structure World where
  flags : FlagId → Bool
  now : Nat

/-- Store a value into one flag cell, leaving every other cell and the clock
unchanged (an atomic store). -/
def World.setFlag (w : World) (fid : FlagId) (b : Bool) : World :=
  { w with flags := fun x => if x = fid then b else w.flags x }

@[simp] theorem World.setFlag_flags (w : World) (fid : FlagId) (b : Bool) (x : FlagId) :
    (w.setFlag fid b).flags x = if x = fid then b else w.flags x := rfl

@[simp] theorem World.setFlag_now (w : World) (fid : FlagId) (b : Bool) :
    (w.setFlag fid b).now = w.now := rfl

/-- StopReason from crates/enough/src/reason.rs: why a check failed. -/
inductive StopReason where
  | Cancelled
  | TimedOut
deriving DecidableEq, Repr

/-- StopReason.is_transient from reason.rs: only TimedOut is transient. -/
def StopReason.is_transient : StopReason → Bool
  | .TimedOut => true
  | .Cancelled => false

/-- Test of an Except value being an error, mirroring Result.is_err. -/
def isErr {ε α : Type} : Except ε α → Bool
  | .error _ => true
  | .ok _ => false

@[simp] theorem isErr_error {ε α : Type} (e : ε) : isErr (Except.error e : Except ε α) = true := rfl

@[simp] theorem isErr_ok {ε α : Type} (a : α) : isErr (Except.ok a : Except ε α) = false := rfl

/-- The Stop trait from crates/enough/src/lib.rs. `check` returns the failure
reason; `should_stop` is default-derived as `check().is_err()` but may be
overridden by implementations. Reads are pure functions of the `World`. -/
class Stop (α : Type) where
  check : α → World → Except StopReason Unit
  should_stop : α → World → Bool := fun a w => isErr (check a w)

export Stop (check should_stop)

/-- Never from lib.rs: the Stop implementation that never stops. -/
structure Never where

instance : Stop Never where
  check _ _ := .ok ()
  should_stop _ _ := false

/-- Stopper from crates/enough/src/stopper.rs: unified-clone primitive over
one Arc-shared flag cell. A clone shares the same `fid`. -/
structure Stopper where
  fid : FlagId

/-- Stopper.cancel: store true into the shared flag (Relaxed store). -/
def Stopper.cancel (s : Stopper) (w : World) : World := w.setFlag s.fid true

/-- Stopper.is_cancelled: load the shared flag. -/
def Stopper.is_cancelled (s : Stopper) (w : World) : Bool := w.flags s.fid

instance : Stop Stopper where
  check s w := if w.flags s.fid then .error .Cancelled else .ok ()
  should_stop s w := w.flags s.fid

/-- AtomicStop from crates/enough/src/atomic.rs: a source owning one flag
cell on the stack. -/
structure AtomicStop where
  fid : FlagId

/-- AtomicToken from atomic.rs: a borrowed reference to the flag cell owned
by an AtomicStop. -/
structure AtomicToken where
  fid : FlagId

/-- AtomicStop.cancel: Relaxed store of true. -/
def AtomicStop.cancel (s : AtomicStop) (w : World) : World := w.setFlag s.fid true

/-- AtomicStop.is_cancelled: Relaxed load. -/
def AtomicStop.is_cancelled (s : AtomicStop) (w : World) : Bool := w.flags s.fid

/-- AtomicStop.token: issue a borrowed token over the same cell. -/
def AtomicStop.token (s : AtomicStop) : AtomicToken := ⟨s.fid⟩

instance : Stop AtomicStop where
  check s w := if w.flags s.fid then .error .Cancelled else .ok ()
  should_stop s w := w.flags s.fid

instance : Stop AtomicToken where
  check t w := if w.flags t.fid then .error .Cancelled else .ok ()
  should_stop t w := w.flags t.fid

/-- ArcStop from crates/enough/src/arc.rs: a source over an Arc-shared flag
cell. -/
structure ArcStop where
  fid : FlagId

/-- ArcToken from arc.rs: an owned token sharing the same Arc flag cell. -/
structure ArcToken where
  fid : FlagId

/-- ArcStop.cancel: Relaxed store of true. -/
def ArcStop.cancel (s : ArcStop) (w : World) : World := w.setFlag s.fid true

/-- ArcStop.is_cancelled: Relaxed load. -/
def ArcStop.is_cancelled (s : ArcStop) (w : World) : Bool := w.flags s.fid

/-- ArcStop.token: issue an owned token over the same cell. -/
def ArcStop.token (s : ArcStop) : ArcToken := ⟨s.fid⟩

instance : Stop ArcStop where
  check s w := if w.flags s.fid then .error .Cancelled else .ok ()
  should_stop s w := w.flags s.fid

instance : Stop ArcToken where
  check t w := if w.flags t.fid then .error .Cancelled else .ok ()
  should_stop t w := w.flags t.fid

/-- SyncStop from crates/enough/src/sync.rs: like AtomicStop but with
Release/Acquire ordering (orderings coincide in this sequential model). -/
structure SyncStop where
  fid : FlagId

/-- SyncToken from sync.rs: borrowed token with Acquire loads. -/
structure SyncToken where
  fid : FlagId

/-- SyncStop.cancel: Release store of true. -/
def SyncStop.cancel (s : SyncStop) (w : World) : World := w.setFlag s.fid true

/-- SyncStop.is_cancelled: Acquire load. -/
def SyncStop.is_cancelled (s : SyncStop) (w : World) : Bool := w.flags s.fid

/-- SyncStop.token: issue a borrowed token over the same cell. -/
def SyncStop.token (s : SyncStop) : SyncToken := ⟨s.fid⟩

instance : Stop SyncStop where
  check s w := if w.flags s.fid then .error .Cancelled else .ok ()
  should_stop s w := w.flags s.fid

instance : Stop SyncToken where
  check t w := if w.flags t.fid then .error .Cancelled else .ok ()
  should_stop t w := w.flags t.fid

/-- One mutating operation on flag cells. The library's mutators are exactly
stores of true (every cancel) and stores of false (the explicit reset of
enough-std CancellationSource and ChildCancellationSource); all other
operations are pure reads or allocations and do not change the `World`. -/
inductive FlagOp where
  | cancel (fid : FlagId)
  | reset (fid : FlagId)
deriving DecidableEq, Repr

/-- Effect of one mutating operation on the world. -/
def FlagOp.apply : FlagOp → World → World
  | .cancel fid, w => w.setFlag fid true
  | .reset fid, w => w.setFlag fid false

/-- Run a sequence of mutating operations, oldest first. -/
def applyOps (ops : List FlagOp) (w : World) : World :=
  ops.foldl (fun w op => op.apply w) w

/-- Whether an operation is an explicit reset. -/
def FlagOp.isReset : FlagOp → Bool
  | .reset _ => true
  | .cancel _ => false

/-- True when the sequence contains no explicit reset operation. -/
def resetFree (ops : List FlagOp) : Bool :=
  ops.all fun op => !op.isReset

@[simp] theorem resetFree_nil : resetFree [] = true := rfl

theorem resetFree_cons {op : FlagOp} {ops : List FlagOp} :
    resetFree (op :: ops) = (!op.isReset && resetFree ops) := by
  simp [resetFree, List.all_cons]

@[simp] theorem applyOps_nil (w : World) : applyOps [] w = w := rfl

@[simp] theorem applyOps_cons (op : FlagOp) (ops : List FlagOp) (w : World) :
    applyOps (op :: ops) w = applyOps ops (op.apply w) := rfl

/-- Key monotonicity lemma: a flag observed true stays true across any
reset-free sequence of the library's mutating operations. -/
theorem flag_mono {ops : List FlagOp} (hops : resetFree ops = true)
    {w : World} {fid : FlagId} (h : w.flags fid = true) :
    (applyOps ops w).flags fid = true := by
  induction ops generalizing w with
  | nil => simpa [applyOps] using h
  | cons op rest ih =>
    rw [resetFree_cons, Bool.and_eq_true] at hops
    obtain ⟨h1, h2⟩ := hops
    cases op with
    | cancel f =>
      refine ih h2 ?_
      simp [FlagOp.apply, World.setFlag]
      exact Or.inr h
    | reset f => simp [FlagOp.isReset] at h1

/-- Running a sequence never changes the clock. -/
theorem applyOps_now (ops : List FlagOp) (w : World) :
    (applyOps ops w).now = w.now := by
  induction ops generalizing w with
  | nil => rfl
  | cons op rest ih =>
    cases op <;> simp [FlagOp.apply, ih]

/-- BoxedStop (crates/enough/src/boxed.rs) and BoxStop: a type-erased Stop
trait object, represented by its two trait methods as pure functions of the
world. -/
structure BoxedStop where
  check : World → Except StopReason Unit
  should_stop : World → Bool

/-- BoxedStop.new: erase a concrete Stop implementation. -/
def BoxedStop.new {α : Type} [Stop α] (a : α) : BoxedStop :=
  ⟨fun w => Stop.check a w, fun w => Stop.should_stop a w⟩

instance : Stop BoxedStop where
  check b w := b.check w
  should_stop b w := b.should_stop w

/-- TreeStopper from crates/enough/src/tree.rs: one own flag plus an optional
type-erased parent. The FlagId argument of the constructors names the fresh
unset cell the Rust constructor allocates. -/
structure TreeStopper where
  selfFlag : FlagId
  parent : Option BoxedStop

/-- TreeStopper.new: a root node, no parent. -/
def TreeStopper.new (fid : FlagId) : TreeStopper := ⟨fid, none⟩

/-- TreeStopper.cancel: store true into this node's own flag only. -/
def TreeStopper.cancel (t : TreeStopper) (w : World) : World :=
  w.setFlag t.selfFlag true

/-- TreeStopper.is_cancelled: own flag first, then delegate to the parent's
should_stop. -/
def TreeStopper.is_cancelled (t : TreeStopper) (w : World) : Bool :=
  if w.flags t.selfFlag then true
  else
    match t.parent with
    | some p => p.should_stop w
    | none => false

/-- TreeStopper check from the Stop impl in tree.rs: own flag first, then
delegate to the parent's check. -/
def TreeStopper.checkImpl (t : TreeStopper) (w : World) : Except StopReason Unit :=
  if w.flags t.selfFlag then .error .Cancelled
  else
    match t.parent with
    | some p => p.check w
    | none => .ok ()

instance : Stop TreeStopper where
  check := TreeStopper.checkImpl
  should_stop := TreeStopper.is_cancelled

/-- TreeStopper.with_parent: a node whose erased parent is any Stop value. -/
def TreeStopper.with_parent {α : Type} [Stop α] (parent : α) (fid : FlagId) : TreeStopper :=
  ⟨fid, some (BoxedStop.new parent)⟩

/-- TreeStopper.child: a child of this node (with_parent of a clone, which
shares this node's state). -/
def TreeStopper.child (t : TreeStopper) (fid : FlagId) : TreeStopper :=
  TreeStopper.with_parent t fid

/-- ChildSource from crates/enough/src/children/mod.rs: one own flag plus a
boxed parent. -/
structure ChildSource where
  selfFlag : FlagId
  parent : BoxedStop

/-- ChildToken from children/mod.rs: shares the child's inner state. -/
structure ChildToken where
  selfFlag : FlagId
  parent : BoxedStop

/-- ChildSource.new from any Stop parent; the FlagId names the fresh cell. -/
def ChildSource.new {α : Type} [Stop α] (parent : α) (fid : FlagId) : ChildSource :=
  ⟨fid, BoxedStop.new parent⟩

/-- ChildSource.cancel: store true into this child's own flag only. -/
def ChildSource.cancel (c : ChildSource) (w : World) : World :=
  w.setFlag c.selfFlag true

/-- ChildSource.is_cancelled: own flag OR parent's should_stop. -/
def ChildSource.is_cancelled (c : ChildSource) (w : World) : Bool :=
  w.flags c.selfFlag || c.parent.should_stop w

instance : Stop ChildSource where
  check c w :=
    if w.flags c.selfFlag then .error .Cancelled
    else c.parent.check w
  should_stop := ChildSource.is_cancelled

/-- ChildSource.token: a token over the same inner state. -/
def ChildSource.token (c : ChildSource) : ChildToken :=
  ⟨c.selfFlag, c.parent⟩

instance : Stop ChildToken where
  check t w :=
    if w.flags t.selfFlag then .error .Cancelled
    else t.parent.check w
  should_stop t w := w.flags t.selfFlag || t.parent.should_stop w

/-- ChildSource.child: a grandchild built from this child's token. -/
def ChildSource.child (c : ChildSource) (fid : FlagId) : ChildSource :=
  ChildSource.new c.token fid

/-- OrStop from crates/enough/src/or.rs: combines two Stop implementations. -/
structure OrStop (α β : Type) where
  a : α
  b : β

/-- OrStop.new. -/
def OrStop.new {α β : Type} (a : α) (b : β) : OrStop α β := ⟨a, b⟩

instance {α β : Type} [Stop α] [Stop β] : Stop (OrStop α β) where
  check o w :=
    match Stop.check o.a w with
    | .error e => .error e
    | .ok _ => Stop.check o.b w
  should_stop o w := Stop.should_stop o.a w || Stop.should_stop o.b w

/-- WithTimeout from crates/enough/src/time/mod.rs: wraps a Stop and adds an
absolute deadline instant. -/
structure WithTimeout (α : Type) where
  inner : α
  deadline : Nat

/-- WithTimeout.new: deadline is the instant of the call plus the duration. -/
def WithTimeout.new {α : Type} (inner : α) (w : World) (duration : Nat) : WithTimeout α :=
  ⟨inner, w.now + duration⟩

/-- WithTimeout.with_deadline: wrap with an absolute deadline. -/
def WithTimeout.with_deadline {α : Type} (inner : α) (deadline : Nat) : WithTimeout α :=
  ⟨inner, deadline⟩

/-- WithTimeout.remaining: saturating time until the deadline. -/
def WithTimeout.remaining {α : Type} (t : WithTimeout α) (w : World) : Nat :=
  t.deadline - w.now

instance {α : Type} [Stop α] : Stop (WithTimeout α) where
  check t w :=
    match Stop.check t.inner w with
    | .error e => .error e
    | .ok _ => if t.deadline ≤ w.now then .error .TimedOut else .ok ()
  should_stop t w := Stop.should_stop t.inner w || decide (t.deadline ≤ w.now)

/-- TimeoutExt with_timeout from time/mod.rs: wrap any Stop in WithTimeout,
deadline being the current instant plus the duration. -/
def TimeoutExt.with_timeout {α : Type} (a : α) (w : World) (duration : Nat) : WithTimeout α :=
  WithTimeout.new a w duration

/-- WithTimeout.tighten: update the deadline in place to the minimum of the
existing deadline and now plus the new duration. -/
def WithTimeout.tighten {α : Type} (t : WithTimeout α) (w : World) (duration : Nat) :
    WithTimeout α :=
  ⟨t.inner, min t.deadline (w.now + duration)⟩

/-- WithTimeout.tighten_deadline: minimum of the existing and new deadline. -/
def WithTimeout.tighten_deadline {α : Type} (t : WithTimeout α) (deadline : Nat) :
    WithTimeout α :=
  ⟨t.inner, min t.deadline deadline⟩

/-- CancellationSource from crates/enough/src/source.rs: Arc-shared inner
flag; tokens carry an optional reference to it plus an optional deadline. -/
structure CancellationSource where
  fid : FlagId

/-- CancellationToken from source.rs: optional shared flag (none never
cancels) plus an optional deadline instant. -/
structure CancellationToken where
  inner : Option FlagId
  deadline : Option Nat

/-- CancellationSource.cancel: Release store of true. -/
def CancellationSource.cancel (s : CancellationSource) (w : World) : World :=
  w.setFlag s.fid true

/-- CancellationSource.is_cancelled: Acquire load. -/
def CancellationSource.is_cancelled (s : CancellationSource) (w : World) : Bool :=
  w.flags s.fid

/-- CancellationSource.token: a token over the shared flag, no deadline. -/
def CancellationSource.token (s : CancellationSource) : CancellationToken :=
  ⟨some s.fid, none⟩

/-- CancellationToken.never: no flag, no deadline. -/
def CancellationToken.never : CancellationToken := ⟨none, none⟩

/-- CancellationToken.with_deadline: merge a new absolute deadline; if one
already exists the earlier wins. -/
def CancellationToken.with_deadline (t : CancellationToken) (new_deadline : Nat) :
    CancellationToken :=
  { t with
    deadline :=
      match t.deadline with
      | some existing => some (min existing new_deadline)
      | none => some new_deadline }

/-- CancellationToken.with_timeout: deadline is now plus the duration. -/
def CancellationToken.with_timeout (t : CancellationToken) (w : World) (duration : Nat) :
    CancellationToken :=
  t.with_deadline (w.now + duration)

/-- CancellationToken.remaining: saturating time until the deadline, none if
no deadline is set. -/
def CancellationToken.remaining (t : CancellationToken) (w : World) : Option Nat :=
  t.deadline.map fun d => d - w.now

/-- CancellationToken.is_timed_out: the deadline exists and has passed. -/
def CancellationToken.is_timed_out (t : CancellationToken) (w : World) : Bool :=
  (t.deadline.map fun d => decide (d ≤ w.now)).getD false

/-- CancellationToken.is_source_cancelled: the flag exists and is set. -/
def CancellationToken.is_source_cancelled (t : CancellationToken) (w : World) : Bool :=
  (t.inner.map fun fid => w.flags fid).getD false

/-- CancellationToken check from the Stop impl in source.rs: cancellation is
consulted first, then the deadline. -/
def CancellationToken.checkImpl (t : CancellationToken) (w : World) :
    Except StopReason Unit :=
  if t.is_source_cancelled w then .error .Cancelled
  else if t.is_timed_out w then .error .TimedOut
  else .ok ()

/-- CancellationToken is_stopped override from source.rs. -/
def CancellationToken.is_stopped (t : CancellationToken) (w : World) : Bool :=
  t.is_source_cancelled w || t.is_timed_out w

instance : Stop CancellationToken where
  check := CancellationToken.checkImpl
  should_stop := CancellationToken.is_stopped

/-- CallbackCancellation from crates/enough/src/callback.rs: a flag plus a
one-shot callback. The `calls` field models how many times the callback has
run. -/
structure CallbackCancellation where
  cancelled : Bool
  calls : Nat
deriving DecidableEq, Repr

/-- CallbackCancellation.new: not cancelled, callback never run. -/
def CallbackCancellation.new : CallbackCancellation := ⟨false, 0⟩

/-- CallbackCancellation.cancel: atomic swap of the flag to true; only the
caller that observed false runs the callback. -/
def CallbackCancellation.cancel (s : CallbackCancellation) : CallbackCancellation :=
  let old := s.cancelled
  let s1 : CallbackCancellation := { s with cancelled := true }
  if old then s1 else { s1 with calls := s1.calls + 1 }

/-- CallbackCancellation.is_cancelled: Acquire load of the flag. -/
def CallbackCancellation.is_cancelled (s : CallbackCancellation) : Bool :=
  s.cancelled

namespace EnoughStd

/-- CancellationSource from crates/enough-std/src/source.rs: owns one flag
cell; tokens are raw pointers to it. This is the variant with the explicit
reset escape hatch. -/
structure CancellationSource where
  fid : FlagId

/-- CancellationToken from crates/enough-std/src/token.rs: a raw pointer to
the flag (null means never cancelled) plus an optional deadline. -/
structure CancellationToken where
  flag : Option FlagId
  deadline : Option Nat

/-- CancellationSource.cancel: Release store of true. -/
def CancellationSource.cancel (s : CancellationSource) (w : World) : World :=
  w.setFlag s.fid true

/-- CancellationSource.is_cancelled: Acquire load. -/
def CancellationSource.is_cancelled (s : CancellationSource) (w : World) : Bool :=
  w.flags s.fid

/-- CancellationSource.reset: store false, allowing reuse of the source. -/
def CancellationSource.reset (s : CancellationSource) (w : World) : World :=
  w.setFlag s.fid false

/-- CancellationSource.token: token pointing at this source's flag. -/
def CancellationSource.token (s : CancellationSource) : CancellationToken :=
  ⟨some s.fid, none⟩

/-- CancellationToken.never: null flag pointer, no deadline. -/
def CancellationToken.never : CancellationToken := ⟨none, none⟩

/-- CancellationToken.with_deadline: the sooner deadline wins. -/
def CancellationToken.with_deadline (t : CancellationToken) (new_deadline : Nat) :
    CancellationToken :=
  { t with
    deadline :=
      match t.deadline with
      | some existing => some (min existing new_deadline)
      | none => some new_deadline }

/-- CancellationToken.with_timeout: deadline is now plus the duration. -/
def CancellationToken.with_timeout (t : CancellationToken) (w : World) (duration : Nat) :
    CancellationToken :=
  t.with_deadline (w.now + duration)

/-- CancellationToken.remaining: saturating time until the deadline. -/
def CancellationToken.remaining (t : CancellationToken) (w : World) : Option Nat :=
  t.deadline.map fun d => d - w.now

/-- CancellationToken is_flag_set: null pointer reads false. -/
def CancellationToken.is_flag_set (t : CancellationToken) (w : World) : Bool :=
  match t.flag with
  | none => false
  | some fid => w.flags fid

/-- CancellationToken is_deadline_passed. -/
def CancellationToken.is_deadline_passed (t : CancellationToken) (w : World) : Bool :=
  (t.deadline.map fun d => decide (d ≤ w.now)).getD false

/-- CancellationToken check from token.rs: flag first, then deadline. -/
def CancellationToken.checkImpl (t : CancellationToken) (w : World) :
    Except StopReason Unit :=
  if t.is_flag_set w then .error .Cancelled
  else if t.is_deadline_passed w then .error .TimedOut
  else .ok ()

/-- CancellationToken is_stopped override from token.rs. -/
def CancellationToken.is_stopped (t : CancellationToken) (w : World) : Bool :=
  t.is_flag_set w || t.is_deadline_passed w

instance : Stop CancellationToken where
  check := CancellationToken.checkImpl
  should_stop := CancellationToken.is_stopped

/-- ChildCancellationSource from crates/enough-std/src/child.rs: an own flag
plus the flattened list of ancestor flags (immediate parent first). -/
structure ChildCancellationSource where
  ownFlag : FlagId
  parentFlags : List FlagId

/-- ChildCancellationSource.new: the parent flag is recorded when the parent
token carries one; the FlagId names the fresh own cell. -/
def ChildCancellationSource.new (parent : CancellationToken) (fid : FlagId) :
    ChildCancellationSource :=
  ⟨fid, match parent.flag with
        | some f => [f]
        | none => []⟩

/-- ChildCancellationSource.child: the new node's parent flags are this
node's own flag followed by this node's parent flags. -/
def ChildCancellationSource.child (c : ChildCancellationSource) (fid : FlagId) :
    ChildCancellationSource :=
  ⟨fid, c.ownFlag :: c.parentFlags⟩

/-- ChildCancellationSource.cancel: Release store of true into the own flag
only. -/
def ChildCancellationSource.cancel (c : ChildCancellationSource) (w : World) : World :=
  w.setFlag c.ownFlag true

/-- ChildCancellationSource.is_self_cancelled: own flag only. -/
def ChildCancellationSource.is_self_cancelled (c : ChildCancellationSource) (w : World) :
    Bool :=
  w.flags c.ownFlag

/-- ChildCancellationSource.is_cancelled: own flag, else any ancestor flag. -/
def ChildCancellationSource.is_cancelled (c : ChildCancellationSource) (w : World) : Bool :=
  if w.flags c.ownFlag then true
  else c.parentFlags.any fun f => w.flags f

/-- ChildCancellationSource.reset: store false into the own flag only. -/
def ChildCancellationSource.reset (c : ChildCancellationSource) (w : World) : World :=
  w.setFlag c.ownFlag false

end EnoughStd

/-- FfiCancellationSource from crates/enough-ffi/src/lib.rs: an owning handle
to a reference-counted CancellationState; `inner` is the state cell. -/
structure FfiCancellationSource where
  inner : FlagId
deriving DecidableEq, Repr

/-- FfiCancellationToken from enough-ffi: an optional strong reference to the
shared state; none is the never-cancelled token. -/
structure FfiCancellationToken where
  inner : Option FlagId
deriving DecidableEq, Repr

/-- FfiCancellationToken.never: no state reference, never cancelled. -/
def FfiCancellationToken.never : FfiCancellationToken := ⟨none⟩

/-- FfiCancellationSource.create_token: clone the Arc into a new token. -/
def FfiCancellationSource.create_token (s : FfiCancellationSource) : FfiCancellationToken :=
  ⟨some s.inner⟩

instance : Stop FfiCancellationToken where
  check t w :=
    match t.inner with
    | some fid => if w.flags fid then .error .Cancelled else .ok ()
    | none => .ok ()
  should_stop t w := (t.inner.map fun fid => w.flags fid).getD false

/-- C function enough_cancellation_create: allocate a fresh uncancelled
state. The FlagId names the fresh cell; the returned world initializes it. -/
def enough_cancellation_create (fid : FlagId) (w : World) :
    FfiCancellationSource × World :=
  (⟨fid⟩, w.setFlag fid false)

/-- C function enough_cancellation_cancel: null is a no-op, otherwise a
Relaxed store of true into the shared state. -/
def enough_cancellation_cancel (p : Option FfiCancellationSource) (w : World) : World :=
  match p with
  | some s => w.setFlag s.inner true
  | none => w

/-- C function enough_cancellation_is_cancelled: null reads false. -/
def enough_cancellation_is_cancelled (p : Option FfiCancellationSource) (w : World) : Bool :=
  (p.map fun s => w.flags s.inner).getD false

/-- C function enough_cancellation_destroy: dropping the source handle
decrements the reference count; it performs no store to the flag, so the
world is unchanged (tokens keep the state alive through their own
references). Null is a no-op. -/
def enough_cancellation_destroy (p : Option FfiCancellationSource) (w : World) : World := w

/-- C function enough_token_create: a token from a source; a null source
yields the never-cancelled token. -/
def enough_token_create (p : Option FfiCancellationSource) : FfiCancellationToken :=
  match p with
  | some s => s.create_token
  | none => FfiCancellationToken.never

/-- C function enough_token_create_never. -/
def enough_token_create_never : FfiCancellationToken := FfiCancellationToken.never

/-- C function enough_token_is_cancelled: null reads false, otherwise the
token's should_stop. -/
def enough_token_is_cancelled (p : Option FfiCancellationToken) (w : World) : Bool :=
  (p.map fun t => Stop.should_stop t w).getD false

/-- C function enough_token_destroy: dropping the token handle decrements
the reference count; no store to the flag. Null is a no-op. -/
def enough_token_destroy (p : Option FfiCancellationToken) (w : World) : World := w

/-- One call through the C FFI surface that may mutate shared state. Reads
and token creation do not change the world and are omitted. -/
inductive FfiOp where
  | cancelSource (p : Option FfiCancellationSource)
  | destroySource (p : Option FfiCancellationSource)
  | destroyToken (p : Option FfiCancellationToken)

/-- Effect of one FFI call on the world. -/
def FfiOp.apply : FfiOp → World → World
  | .cancelSource p, w => enough_cancellation_cancel p w
  | .destroySource p, w => enough_cancellation_destroy p w
  | .destroyToken p, w => enough_token_destroy p w

/-- Run a sequence of FFI calls, oldest first. -/
def applyFfiOps (ops : List FfiOp) (w : World) : World :=
  ops.foldl (fun w op => op.apply w) w

@[simp] theorem applyFfiOps_nil (w : World) : applyFfiOps [] w = w := rfl

@[simp] theorem applyFfiOps_cons (op : FfiOp) (ops : List FfiOp) (w : World) :
    applyFfiOps (op :: ops) w = applyFfiOps ops (op.apply w) := rfl

/-- Whether one FFI call stores true into the given state cell. -/
def FfiOp.cancelsFlag (op : FfiOp) (fid : FlagId) : Bool :=
  match op with
  | .cancelSource (some s) => s.inner == fid
  | _ => false

/-- FFI calls never store false: a state cell observed true stays true under
any further sequence of FFI calls. -/
theorem ffi_flag_mono (ops : List FfiOp) {w : World} {fid : FlagId}
    (h : w.flags fid = true) : (applyFfiOps ops w).flags fid = true := by
  induction ops generalizing w with
  | nil => simpa using h
  | cons op rest ih =>
    refine ih ?_
    cases op with
    | cancelSource p =>
      cases p with
      | none => simpa [FfiOp.apply, enough_cancellation_cancel] using h
      | some s =>
        simp [FfiOp.apply, enough_cancellation_cancel, World.setFlag]
        exact Or.inr h
    | destroySource p => simpa [FfiOp.apply, enough_cancellation_destroy] using h
    | destroyToken p => simpa [FfiOp.apply, enough_token_destroy] using h

/-- If no call in the sequence cancels the given state cell, its value is
unchanged. -/
theorem ffi_flag_frame (ops : List FfiOp) {fid : FlagId}
    (hops : (ops.all fun op => !op.cancelsFlag fid) = true) (w : World) :
    (applyFfiOps ops w).flags fid = w.flags fid := by
  induction ops generalizing w with
  | nil => simp
  | cons op rest ih =>
    rw [List.all_cons, Bool.and_eq_true] at hops
    obtain ⟨h1, h2⟩ := hops
    rw [applyFfiOps_cons, ih h2]
    cases op with
    | cancelSource p =>
      cases p with
      | none => rfl
      | some s =>
        simp [FfiOp.cancelsFlag, beq_iff_eq] at h1
        simp [FfiOp.apply, enough_cancellation_cancel, World.setFlag, Ne.symm h1]
    | destroySource p => rfl
    | destroyToken p => rfl

/-- Trees built by the library constructors: a root, a child of such a tree,
or a node parented on a Stopper via with_parent. -/
inductive IsLibTree : TreeStopper → Prop where
  | root (fid : FlagId) : IsLibTree (TreeStopper.new fid)
  | child (t : TreeStopper) (fid : FlagId) : IsLibTree t → IsLibTree (t.child fid)
  | stopperParent (s : Stopper) (fid : FlagId) : IsLibTree (TreeStopper.with_parent s fid)

theorem TreeStopper.is_cancelled_new (fid : FlagId) (w : World) :
    (TreeStopper.new fid).is_cancelled w = w.flags fid := by
  simp only [TreeStopper.new, TreeStopper.is_cancelled]
  cases w.flags fid <;> simp

theorem TreeStopper.is_cancelled_child (t : TreeStopper) (fid : FlagId) (w : World) :
    (t.child fid).is_cancelled w = (w.flags fid || t.is_cancelled w) := by
  simp only [TreeStopper.child, TreeStopper.with_parent, TreeStopper.is_cancelled,
    BoxedStop.new]
  cases w.flags fid <;> rfl

theorem TreeStopper.is_cancelled_with_parent_stopper (s : Stopper) (fid : FlagId)
    (w : World) :
    (TreeStopper.with_parent s fid).is_cancelled w = (w.flags fid || w.flags s.fid) := by
  simp only [TreeStopper.with_parent, TreeStopper.is_cancelled, BoxedStop.new]
  cases w.flags fid <;> rfl

/-- Monotonicity of library-built trees under reset-free operation
sequences. -/
theorem tree_mono {t : TreeStopper} (ht : IsLibTree t) {ops : List FlagOp}
    (hops : resetFree ops = true) {w : World} (h : t.is_cancelled w = true) :
    t.is_cancelled (applyOps ops w) = true := by
  induction ht with
  | root fid =>
    rw [TreeStopper.is_cancelled_new] at h ⊢
    exact flag_mono hops h
  | child t fid ht ih =>
    rw [TreeStopper.is_cancelled_child] at h ⊢
    rcases Bool.or_eq_true_iff.mp h with h1 | h1
    · exact Bool.or_eq_true_iff.mpr (Or.inl (flag_mono hops h1))
    · exact Bool.or_eq_true_iff.mpr (Or.inr (ih h1))
  | stopperParent s fid =>
    rw [TreeStopper.is_cancelled_with_parent_stopper] at h ⊢
    rcases Bool.or_eq_true_iff.mp h with h1 | h1
    · exact Bool.or_eq_true_iff.mpr (Or.inl (flag_mono hops h1))
    · exact Bool.or_eq_true_iff.mpr (Or.inr (flag_mono hops h1))

/-- C1: Monotonicity. For every token type in the library (Stopper,
AtomicStop/AtomicToken, ArcStop/ArcToken, SyncStop/SyncToken, library-built
TreeStopper, FFI tokens), once should_stop is true it stays true across any
sequence of the library's mutating operations that contains no explicit
reset; and a cancelled flag once set is never cleared by any operation
except reset. -/
theorem c1_monotonicity (ops : List FlagOp) (hops : resetFree ops = true) (w : World) :
    (∀ fid : FlagId, w.flags fid = true → (applyOps ops w).flags fid = true)
  ∧ (∀ s : Stopper, Stop.should_stop s w = true →
      Stop.should_stop s (applyOps ops w) = true)
  ∧ (∀ s : AtomicStop, Stop.should_stop s w = true →
      Stop.should_stop s (applyOps ops w) = true)
  ∧ (∀ t : AtomicToken, Stop.should_stop t w = true →
      Stop.should_stop t (applyOps ops w) = true)
  ∧ (∀ s : ArcStop, Stop.should_stop s w = true →
      Stop.should_stop s (applyOps ops w) = true)
  ∧ (∀ t : ArcToken, Stop.should_stop t w = true →
      Stop.should_stop t (applyOps ops w) = true)
  ∧ (∀ s : SyncStop, Stop.should_stop s w = true →
      Stop.should_stop s (applyOps ops w) = true)
  ∧ (∀ t : SyncToken, Stop.should_stop t w = true →
      Stop.should_stop t (applyOps ops w) = true)
  ∧ (∀ t : TreeStopper, IsLibTree t → Stop.should_stop t w = true →
      Stop.should_stop t (applyOps ops w) = true)
  ∧ (∀ t : FfiCancellationToken, Stop.should_stop t w = true →
      Stop.should_stop t (applyOps ops w) = true) := by
  refine ⟨fun fid h => flag_mono hops h,
          fun s h => flag_mono hops h,
          fun s h => flag_mono hops h,
          fun t h => flag_mono hops h,
          fun s h => flag_mono hops h,
          fun t h => flag_mono hops h,
          fun s h => flag_mono hops h,
          fun t h => flag_mono hops h,
          fun t ht h => tree_mono ht hops h,
          fun t h => ?_⟩
  cases t with
  | mk inner =>
    cases inner with
    | none => exact absurd h Bool.false_ne_true
    | some fid => exact flag_mono hops h

/-- Witness for c1_monotonicity at a concrete reset-free sequence, world and
tokens. -/
theorem c1_monotonicity_witness :
    Stop.should_stop (Stopper.mk 0)
      (applyOps [FlagOp.cancel 1] ⟨fun x => decide (x = 0), 0⟩) = true
  ∧ Stop.should_stop ((TreeStopper.new 0).child 2)
      (applyOps [FlagOp.cancel 1] ⟨fun x => decide (x = 0), 0⟩) = true := by
  have h := c1_monotonicity [FlagOp.cancel 1] (by decide) ⟨fun x => decide (x = 0), 0⟩
  refine ⟨h.2.1 ⟨0⟩ (by decide), ?_⟩
  exact h.2.2.2.2.2.2.2.2.1 ((TreeStopper.new 0).child 2)
    (IsLibTree.child _ 2 (IsLibTree.root 0)) (by decide)

theorem EnoughStd.child_is_cancelled_of_mem {c : EnoughStd.ChildCancellationSource}
    {w : World} {f : FlagId} (hf : f ∈ c.parentFlags) (h : w.flags f = true) :
    c.is_cancelled w = true := by
  unfold EnoughStd.ChildCancellationSource.is_cancelled
  split
  · rfl
  · exact List.any_eq_true.mpr ⟨f, hf, h⟩

/-- C2: Tree propagation. For a chain root, L1, L2, L3 built with child,
cancelling the root makes every descendant report should_stop true; and a
node's cancellation state equals its own flag OR-ed with its parent's
should_stop. Holds both for TreeStopper (crates/enough/src/tree.rs) and for
the flattened enough-std ChildCancellationSource. -/
theorem c2_tree_propagation (f0 f1 f2 f3 : FlagId) (w : World) :
    (Stop.should_stop ((TreeStopper.new f0).child f1)
        ((TreeStopper.new f0).cancel w) = true
     ∧ Stop.should_stop (((TreeStopper.new f0).child f1).child f2)
        ((TreeStopper.new f0).cancel w) = true
     ∧ Stop.should_stop ((((TreeStopper.new f0).child f1).child f2).child f3)
        ((TreeStopper.new f0).cancel w) = true)
  ∧ (∀ t : TreeStopper,
      t.is_cancelled w = (w.flags t.selfFlag ||
        (match t.parent with
         | some p => p.should_stop w
         | none => false)))
  ∧ ((EnoughStd.ChildCancellationSource.new
        (EnoughStd.CancellationSource.token ⟨f0⟩) f1).is_cancelled
        (EnoughStd.CancellationSource.cancel ⟨f0⟩ w) = true
     ∧ ((EnoughStd.ChildCancellationSource.new
        (EnoughStd.CancellationSource.token ⟨f0⟩) f1).child f2).is_cancelled
        (EnoughStd.CancellationSource.cancel ⟨f0⟩ w) = true
     ∧ (((EnoughStd.ChildCancellationSource.new
        (EnoughStd.CancellationSource.token ⟨f0⟩) f1).child f2).child f3).is_cancelled
        (EnoughStd.CancellationSource.cancel ⟨f0⟩ w) = true) := by
  have hroot : ((TreeStopper.new f0).cancel w).flags f0 = true := by
    simp [TreeStopper.cancel, TreeStopper.new]
  have hroot2 : (EnoughStd.CancellationSource.cancel ⟨f0⟩ w).flags f0 = true := by
    simp [EnoughStd.CancellationSource.cancel]
  refine ⟨⟨?_, ?_, ?_⟩, ?_, ?_, ?_, ?_⟩
  · show ((TreeStopper.new f0).child f1).is_cancelled _ = true
    rw [TreeStopper.is_cancelled_child, TreeStopper.is_cancelled_new, hroot]
    simp
  · show (((TreeStopper.new f0).child f1).child f2).is_cancelled _ = true
    rw [TreeStopper.is_cancelled_child, TreeStopper.is_cancelled_child,
      TreeStopper.is_cancelled_new, hroot]
    simp
  · show ((((TreeStopper.new f0).child f1).child f2).child f3).is_cancelled _ = true
    rw [TreeStopper.is_cancelled_child, TreeStopper.is_cancelled_child,
      TreeStopper.is_cancelled_child, TreeStopper.is_cancelled_new, hroot]
    simp
  · intro t
    unfold TreeStopper.is_cancelled
    cases h : w.flags t.selfFlag <;> simp
  · exact EnoughStd.child_is_cancelled_of_mem (by
      simp [EnoughStd.ChildCancellationSource.new, EnoughStd.CancellationSource.token]) hroot2
  · exact EnoughStd.child_is_cancelled_of_mem (by
      simp [EnoughStd.ChildCancellationSource.new, EnoughStd.CancellationSource.token,
        EnoughStd.ChildCancellationSource.child]) hroot2
  · exact EnoughStd.child_is_cancelled_of_mem (by
      simp [EnoughStd.ChildCancellationSource.new, EnoughStd.CancellationSource.token,
        EnoughStd.ChildCancellationSource.child]) hroot2

@[simp] theorem stopper_should_stop_eq (s : Stopper) (w : World) :
    Stop.should_stop s w = w.flags s.fid := rfl

@[simp] theorem atomic_stop_should_stop_eq (s : AtomicStop) (w : World) :
    Stop.should_stop s w = w.flags s.fid := rfl

@[simp] theorem atomic_token_should_stop_eq (t : AtomicToken) (w : World) :
    Stop.should_stop t w = w.flags t.fid := rfl

@[simp] theorem arc_stop_should_stop_eq (s : ArcStop) (w : World) :
    Stop.should_stop s w = w.flags s.fid := rfl

@[simp] theorem arc_token_should_stop_eq (t : ArcToken) (w : World) :
    Stop.should_stop t w = w.flags t.fid := rfl

@[simp] theorem sync_stop_should_stop_eq (s : SyncStop) (w : World) :
    Stop.should_stop s w = w.flags s.fid := rfl

@[simp] theorem sync_token_should_stop_eq (t : SyncToken) (w : World) :
    Stop.should_stop t w = w.flags t.fid := rfl

@[simp] theorem BoxedStop.new_should_stop {α : Type} [Stop α] (a : α) (w : World) :
    (BoxedStop.new a).should_stop w = Stop.should_stop a w := rfl

@[simp] theorem BoxedStop.new_check {α : Type} [Stop α] (a : α) (w : World) :
    (BoxedStop.new a).check w = Stop.check a w := rfl

@[simp] theorem tree_should_stop_eq (t : TreeStopper) (w : World) :
    Stop.should_stop t w = t.is_cancelled w := rfl

/-- C3: Tree isolation. For a root with two children, cancelling child A
makes A report true while B and the root stay false; and cancel on a tree
node writes only that node's own flag, leaving every other cell and the
clock unchanged. Holds for TreeStopper (tree.rs) and ChildSource
(children/mod.rs). -/
theorem c3_tree_isolation (f0 fa fb : FlagId) (w : World)
    (ha0 : fa ≠ f0) (hab : fa ≠ fb)
    (h0 : w.flags f0 = false) (hb : w.flags fb = false) :
    (Stop.should_stop ((TreeStopper.new f0).child fa)
        (((TreeStopper.new f0).child fa).cancel w) = true
     ∧ Stop.should_stop ((TreeStopper.new f0).child fb)
        (((TreeStopper.new f0).child fa).cancel w) = false
     ∧ Stop.should_stop (TreeStopper.new f0)
        (((TreeStopper.new f0).child fa).cancel w) = false)
  ∧ (∀ t : TreeStopper, ∀ x : FlagId, x ≠ t.selfFlag →
      (t.cancel w).flags x = w.flags x)
  ∧ (∀ t : TreeStopper, (t.cancel w).now = w.now)
  ∧ ((ChildSource.new (ArcStop.token ⟨f0⟩) fa).is_cancelled
        ((ChildSource.new (ArcStop.token ⟨f0⟩) fa).cancel w) = true
     ∧ (ChildSource.new (ArcStop.token ⟨f0⟩) fb).is_cancelled
        ((ChildSource.new (ArcStop.token ⟨f0⟩) fa).cancel w) = false
     ∧ ArcStop.is_cancelled ⟨f0⟩
        ((ChildSource.new (ArcStop.token ⟨f0⟩) fa).cancel w) = false)
  ∧ (∀ c : ChildSource, ∀ x : FlagId, x ≠ c.selfFlag →
      (c.cancel w).flags x = w.flags x) := by
  have hwa : ∀ x : FlagId, x ≠ fa →
      (((TreeStopper.new f0).child fa).cancel w).flags x = w.flags x := by
    intro x hx
    simp [TreeStopper.cancel, TreeStopper.child, TreeStopper.with_parent,
      World.setFlag, hx]
  have hfa : (((TreeStopper.new f0).child fa).cancel w).flags fa = true := by
    simp [TreeStopper.cancel, TreeStopper.child, TreeStopper.with_parent, World.setFlag]
  refine ⟨⟨?_, ?_, ?_⟩, ?_, ?_, ⟨?_, ?_, ?_⟩, ?_⟩
  · rw [tree_should_stop_eq, TreeStopper.is_cancelled_child, hfa]
    rfl
  · rw [tree_should_stop_eq, TreeStopper.is_cancelled_child,
      TreeStopper.is_cancelled_new, hwa fb (Ne.symm hab), hwa f0 (Ne.symm ha0), hb, h0]
    rfl
  · rw [tree_should_stop_eq, TreeStopper.is_cancelled_new, hwa f0 (Ne.symm ha0)]
    exact h0
  · intro t x hx
    simp [TreeStopper.cancel, World.setFlag, hx]
  · intro t
    rfl
  · simp [ChildSource.is_cancelled, ChildSource.new, ChildSource.cancel,
      ArcStop.token, World.setFlag]
  · simp [ChildSource.is_cancelled, ChildSource.new, ChildSource.cancel,
      ArcStop.token, World.setFlag, Ne.symm hab, Ne.symm ha0, hb, h0]
  · simp [ArcStop.is_cancelled, ChildSource.new, ChildSource.cancel,
      World.setFlag, Ne.symm ha0, h0]
  · intro c x hx
    simp [ChildSource.cancel, World.setFlag, hx]

/-- Witness for c3_tree_isolation at concrete distinct flags and the
all-false world. -/
theorem c3_tree_isolation_witness :
    Stop.should_stop ((TreeStopper.new 0).child 1)
      (((TreeStopper.new 0).child 1).cancel ⟨fun _ => false, 0⟩) = true
  ∧ Stop.should_stop ((TreeStopper.new 0).child 2)
      (((TreeStopper.new 0).child 1).cancel ⟨fun _ => false, 0⟩) = false
  ∧ Stop.should_stop (TreeStopper.new 0)
      (((TreeStopper.new 0).child 1).cancel ⟨fun _ => false, 0⟩) = false := by
  have h := c3_tree_isolation 0 1 2 ⟨fun _ => false, 0⟩
    (by decide) (by decide) rfl rfl
  exact ⟨h.1.1, h.1.2.1, h.1.2.2⟩

@[simp] theorem or_check_eq {α β : Type} [Stop α] [Stop β] (o : OrStop α β) (w : World) :
    Stop.check o w =
      (match Stop.check o.a w with
       | .error e => .error e
       | .ok _ => Stop.check o.b w) := rfl

@[simp] theorem or_should_stop_eq {α β : Type} [Stop α] [Stop β] (o : OrStop α β)
    (w : World) :
    Stop.should_stop o w = (Stop.should_stop o.a w || Stop.should_stop o.b w) := rfl

@[simp] theorem withTimeout_check_eq {α : Type} [Stop α] (t : WithTimeout α) (w : World) :
    Stop.check t w =
      (match Stop.check t.inner w with
       | .error e => .error e
       | .ok _ => if t.deadline ≤ w.now then .error .TimedOut else .ok ()) := rfl

@[simp] theorem withTimeout_should_stop_eq {α : Type} [Stop α] (t : WithTimeout α)
    (w : World) :
    Stop.should_stop t w = (Stop.should_stop t.inner w || decide (t.deadline ≤ w.now)) := rfl

/-- C4: Or tie-break. OrStop.check evaluates the first operand and returns
its error immediately if any, otherwise returns the second operand's
result; with both operands stopped it returns the first operand's reason;
should_stop is the order-independent boolean OR of the operands. -/
theorem c4_or_tie_break {α β : Type} [Stop α] [Stop β] (a : α) (b : β) (w : World) :
    (∀ ra : StopReason, Stop.check a w = .error ra →
        Stop.check (OrStop.new a b) w = .error ra)
  ∧ (Stop.check a w = .ok () →
        Stop.check (OrStop.new a b) w = Stop.check b w)
  ∧ (∀ ra rb : StopReason, Stop.check a w = .error ra → Stop.check b w = .error rb →
        Stop.check (OrStop.new a b) w = .error ra)
  ∧ (Stop.should_stop (OrStop.new a b) w
        = (Stop.should_stop a w || Stop.should_stop b w))
  ∧ (Stop.should_stop (OrStop.new a b) w = Stop.should_stop (OrStop.new b a) w) := by
  refine ⟨?_, ?_, ?_, ?_, ?_⟩
  · intro ra ha
    simp [OrStop.new, ha]
  · intro ha
    simp [OrStop.new, ha]
  · intro ra rb ha hb
    simp [OrStop.new, ha]
  · rfl
  · simp [OrStop.new, Bool.or_comm]

/-- Witness for c4_or_tie_break: both operands stopped for different
reasons; the combined check reports the first operand's reason. -/
theorem c4_or_tie_break_witness :
    Stop.check (OrStop.new (AtomicToken.mk 0) (WithTimeout.mk Never.mk 3))
      ⟨fun x => decide (x = 0), 5⟩ = .error .Cancelled := by
  have h := c4_or_tie_break (AtomicToken.mk 0) (WithTimeout.mk Never.mk 3)
    ⟨fun x => decide (x = 0), 5⟩
  exact h.2.2.1 .Cancelled .TimedOut rfl rfl

/-- C5: Cancellation takes priority over timeout. WithTimeout.check
delegates to the inner token before comparing the time to the deadline; a
CancellationToken checks its shared flag before its deadline. When both
conditions hold at the same instant the result is Cancelled, never
TimedOut. -/
theorem c5_cancel_priority (w : World) :
    (∀ {α : Type} [Stop α] (t : WithTimeout α),
        Stop.check t.inner w = .error .Cancelled → t.deadline ≤ w.now →
        Stop.check t w = .error .Cancelled)
  ∧ (∀ tok : CancellationToken, tok.is_source_cancelled w = true →
        tok.is_timed_out w = true → Stop.check tok w = .error .Cancelled) := by
  constructor
  · intro α _ t hc hd
    simp [hc]
  · intro tok hc hd
    show tok.checkImpl w = .error .Cancelled
    simp [CancellationToken.checkImpl, hc]

/-- Witness for c5_cancel_priority: a cancelled inner token whose deadline
has also passed reports Cancelled in both embeddings. -/
theorem c5_cancel_priority_witness :
    Stop.check (WithTimeout.mk (AtomicToken.mk 0) 3) ⟨fun x => decide (x = 0), 5⟩
      = .error .Cancelled
  ∧ Stop.check (CancellationToken.mk (some 0) (some 3)) ⟨fun x => decide (x = 0), 5⟩
      = .error .Cancelled := by
  have h := c5_cancel_priority ⟨fun x => decide (x = 0), 5⟩
  exact ⟨h.1 (WithTimeout.mk (AtomicToken.mk 0) 3) rfl (by decide),
         h.2 (CancellationToken.mk (some 0) (some 3)) rfl rfl⟩

/-- C6: Timeout tightening. Applying a second timeout never extends the
first: a CancellationToken keeps the minimum of its deadlines, so sixty
seconds followed by ten leaves remaining strictly below eleven; the nested
WithTimeout wrapper shows the same remaining bound; adding a timeout never
removes a stop that the wrapped token already reports; and tighten takes
the minimum of the existing and the new deadline. -/
theorem c6_timeout_tightening (w1 w2 w3 : World) (h23 : w2.now ≤ w3.now) :
    (∀ tok : CancellationToken, tok.deadline = none →
        ∀ r : Nat, ((tok.with_timeout w1 60).with_timeout w2 10).remaining w3 = some r →
        r < 11)
  ∧ (∀ {α : Type} [Stop α] (x : WithTimeout α),
        (TimeoutExt.with_timeout x w2 10).remaining w3 < 11)
  ∧ (∀ {α : Type} [Stop α] (x : α) (dur : Nat) (σ : World),
        Stop.should_stop x σ = true →
        Stop.should_stop (TimeoutExt.with_timeout x w2 dur) σ = true)
  ∧ (∀ {α : Type} (x : WithTimeout α) (dur : Nat),
        (x.tighten w2 dur).deadline = min x.deadline (w2.now + dur)
        ∧ (x.tighten w2 dur).deadline ≤ x.deadline)
  ∧ (∀ (tok : CancellationToken) (e d : Nat), tok.deadline = some e →
        (tok.with_deadline d).deadline = some (min e d)) := by
  refine ⟨?_, ?_, ?_, ?_, ?_⟩
  · intro tok hnone r hr
    simp [CancellationToken.with_timeout, CancellationToken.with_deadline,
      CancellationToken.remaining, hnone] at hr
    have hmin : min (w1.now + 60) (w2.now + 10) ≤ w2.now + 10 := Nat.min_le_right _ _
    omega
  · intro α _ x
    show w2.now + 10 - w3.now < 11
    omega
  · intro α _ x dur σ hx
    simp [TimeoutExt.with_timeout, WithTimeout.new, hx]
  · intro α x dur
    exact ⟨rfl, Nat.min_le_left _ _⟩
  · intro tok e d he
    simp [CancellationToken.with_deadline, he]

/-- Witness for c6_timeout_tightening at concrete instants: timeouts taken
at seconds zero and two, remaining measured at second five. -/
theorem c6_timeout_tightening_witness :
    ((CancellationToken.never.with_timeout ⟨fun _ => false, 0⟩ 60).with_timeout
        ⟨fun _ => false, 2⟩ 10).remaining ⟨fun _ => false, 5⟩ = some 7
  ∧ 7 < 11 := by
  have h := c6_timeout_tightening ⟨fun _ => false, 0⟩ ⟨fun _ => false, 2⟩
    ⟨fun _ => false, 5⟩ (by decide)
  refine ⟨rfl, h.1 CancellationToken.never rfl 7 rfl⟩

@[simp] theorem ffi_token_should_stop_eq (t : FfiCancellationToken) (w : World) :
    Stop.should_stop t w = (t.inner.map fun fid => w.flags fid).getD false := rfl

/-- C7: FFI token survival. A token created from a source remains readable
after the source handle is destroyed: if the source was cancelled first the
token reports true forever (no FFI call stores false); if the source is
destroyed without being cancelled, no remaining FFI call can cancel that
lineage, so the token reports false forever. -/
theorem c7_ffi_survival (sid : FlagId) (w : World) (ops : List FfiOp)
    (hops : (ops.all fun op => !op.cancelsFlag sid) = true) :
    (∀ ops2 : List FfiOp,
      enough_token_is_cancelled
        (some (enough_token_create (some (enough_cancellation_create sid w).1)))
        (applyFfiOps ops2
          (enough_cancellation_destroy (some (enough_cancellation_create sid w).1)
            (enough_cancellation_cancel (some (enough_cancellation_create sid w).1)
              (enough_cancellation_create sid w).2))) = true)
  ∧ (enough_token_is_cancelled
        (some (enough_token_create (some (enough_cancellation_create sid w).1)))
        (applyFfiOps ops
          (enough_cancellation_destroy (some (enough_cancellation_create sid w).1)
            (enough_cancellation_create sid w).2)) = false) := by
  constructor
  · intro ops2
    show (applyFfiOps ops2 _).flags sid = true
    refine ffi_flag_mono ops2 ?_
    simp [enough_cancellation_create, enough_cancellation_cancel,
      enough_cancellation_destroy, World.setFlag]
  · show (applyFfiOps ops _).flags sid = false
    rw [ffi_flag_frame ops hops]
    simp [enough_cancellation_create, enough_cancellation_destroy, World.setFlag]

/-- Witness for c7_ffi_survival: state cell three, later calls cancel a
different source (cell four) and destroy handles. -/
theorem c7_ffi_survival_witness :
    enough_token_is_cancelled
      (some (enough_token_create (some (enough_cancellation_create 3 ⟨fun _ => false, 0⟩).1)))
      (applyFfiOps [FfiOp.cancelSource (some ⟨4⟩), FfiOp.destroyToken none]
        (enough_cancellation_destroy (some (enough_cancellation_create 3 ⟨fun _ => false, 0⟩).1)
          (enough_cancellation_create 3 ⟨fun _ => false, 0⟩).2)) = false := by
  exact (c7_ffi_survival 3 ⟨fun _ => false, 0⟩
    [FfiOp.cancelSource (some ⟨4⟩), FfiOp.destroyToken none] (by decide)).2

/-- C8: FFI null safety. Every FFI function given a null pointer for its
nullable argument returns the documented default: cancel and the destroys
are no-ops on the world, the cancelled queries return false, and
create_token with a null source returns a token that never reports
cancelled. -/
theorem c8_ffi_null_safety (w : World) :
    enough_cancellation_cancel none w = w
  ∧ enough_cancellation_destroy none w = w
  ∧ enough_token_destroy none w = w
  ∧ enough_cancellation_is_cancelled none w = false
  ∧ enough_token_is_cancelled none w = false
  ∧ enough_token_create none = FfiCancellationToken.never
  ∧ (∀ w2 : World, Stop.should_stop (enough_token_create none) w2 = false) := by
  exact ⟨rfl, rfl, rfl, rfl, rfl, rfl, fun w2 => rfl⟩

theorem World.ext_of {w1 w2 : World} (hf : ∀ x, w1.flags x = w2.flags x)
    (hn : w1.now = w2.now) : w1 = w2 := by
  cases w1
  cases w2
  simp only [World.mk.injEq]
  exact ⟨funext hf, hn⟩

theorem World.setFlag_idem (w : World) (fid : FlagId) (b : Bool) :
    (w.setFlag fid b).setFlag fid b = w.setFlag fid b := by
  refine World.ext_of (fun x => ?_) rfl
  by_cases hx : x = fid <;> simp [World.setFlag, hx]

theorem iterate_fixed {σ : Type} (f : σ → σ) (hf : ∀ x, f (f x) = f x) :
    ∀ n, 1 ≤ n → ∀ x, Nat.iterate f n x = f x := by
  intro n
  induction n with
  | zero => omega
  | succ m ih =>
    intro _ x
    cases Nat.eq_zero_or_pos m with
    | inl h0 => subst h0; rfl
    | inr hpos =>
      rw [Function.iterate_succ_apply, ih hpos (f x), hf]

theorem CallbackCancellation.cancel_idem (s : CallbackCancellation) :
    CallbackCancellation.cancel (CallbackCancellation.cancel s) =
      CallbackCancellation.cancel s := by
  cases s with
  | mk c k => cases c <;> rfl

/-- C9: Idempotent cancel. Cancelling N times (N at least one) leaves the
same terminal state as cancelling once — at the flag level for any source,
and for Stopper, AtomicStop and the FFI cancel in particular — and the
callback variant runs its callback exactly once over any number of cancel
calls, because only the caller whose atomic swap observed false runs it. -/
theorem c9_idempotent_cancel (n : Nat) (hn : 1 ≤ n) :
    (∀ (fid : FlagId) (w : World),
        applyOps (List.replicate n (FlagOp.cancel fid)) w =
          applyOps [FlagOp.cancel fid] w)
  ∧ (∀ (s : Stopper) (w : World), Nat.iterate s.cancel n w = s.cancel w)
  ∧ (∀ (s : AtomicStop) (w : World), Nat.iterate s.cancel n w = s.cancel w)
  ∧ (∀ (p : Option FfiCancellationSource) (w : World),
        Nat.iterate (enough_cancellation_cancel p) n w = enough_cancellation_cancel p w)
  ∧ (∀ c : CallbackCancellation,
        Nat.iterate CallbackCancellation.cancel n c = CallbackCancellation.cancel c)
  ∧ (Nat.iterate CallbackCancellation.cancel n CallbackCancellation.new).calls = 1 := by
  have hrep : ∀ (fid : FlagId) (w : World),
      applyOps (List.replicate n (FlagOp.cancel fid)) w = applyOps [FlagOp.cancel fid] w := by
    intro fid w
    have hiter : ∀ (m : Nat) (w0 : World),
        applyOps (List.replicate m (FlagOp.cancel fid)) w0 =
          Nat.iterate (fun v => v.setFlag fid true) m w0 := by
      intro m
      induction m with
      | zero => intro w0; rfl
      | succ k ih =>
        intro w0
        rw [List.replicate_succ, applyOps_cons, ih, Function.iterate_succ_apply]
        rfl
    rw [hiter, iterate_fixed _ (fun x => World.setFlag_idem x fid true) n hn]
    rfl
  refine ⟨hrep, ?_, ?_, ?_, ?_, ?_⟩
  · intro s w
    exact iterate_fixed _ (fun x => World.setFlag_idem x s.fid true) n hn w
  · intro s w
    exact iterate_fixed _ (fun x => World.setFlag_idem x s.fid true) n hn w
  · intro p w
    cases p with
    | none =>
      have hall : ∀ (m : Nat) (x : World),
          Nat.iterate (enough_cancellation_cancel none) m x = x := by
        intro m
        induction m with
        | zero => intro x; rfl
        | succ k ih2 =>
          intro x
          rw [Function.iterate_succ_apply]
          exact ih2 x
      rw [hall n w]
      rfl
    | some s =>
      exact iterate_fixed _ (fun x => World.setFlag_idem x s.inner true) n hn w
  · intro c
    exact iterate_fixed _ CallbackCancellation.cancel_idem n hn c
  · rw [iterate_fixed _ CallbackCancellation.cancel_idem n hn]
    rfl

/-- Witness for c9_idempotent_cancel at three cancel calls. -/
theorem c9_idempotent_cancel_witness :
    (Nat.iterate CallbackCancellation.cancel 3 CallbackCancellation.new).calls = 1 := by
  exact (c9_idempotent_cancel 3 (by decide)).2.2.2.2.2

@[simp] theorem stopper_check_eq (s : Stopper) (w : World) :
    Stop.check s w = (if w.flags s.fid then .error .Cancelled else .ok ()) := rfl

@[simp] theorem atomic_stop_check_eq (s : AtomicStop) (w : World) :
    Stop.check s w = (if w.flags s.fid then .error .Cancelled else .ok ()) := rfl

@[simp] theorem atomic_token_check_eq (t : AtomicToken) (w : World) :
    Stop.check t w = (if w.flags t.fid then .error .Cancelled else .ok ()) := rfl

@[simp] theorem arc_stop_check_eq (s : ArcStop) (w : World) :
    Stop.check s w = (if w.flags s.fid then .error .Cancelled else .ok ()) := rfl

@[simp] theorem arc_token_check_eq (t : ArcToken) (w : World) :
    Stop.check t w = (if w.flags t.fid then .error .Cancelled else .ok ()) := rfl

@[simp] theorem sync_stop_check_eq (s : SyncStop) (w : World) :
    Stop.check s w = (if w.flags s.fid then .error .Cancelled else .ok ()) := rfl

@[simp] theorem sync_token_check_eq (t : SyncToken) (w : World) :
    Stop.check t w = (if w.flags t.fid then .error .Cancelled else .ok ()) := rfl

@[simp] theorem tree_check_eq (t : TreeStopper) (w : World) :
    Stop.check t w = t.checkImpl w := rfl

/-- C10: should_stop agrees with the default derivation from check. Every
overriding implementation satisfies should_stop true exactly when check
errs, and OrStop, WithTimeout and TreeStopper preserve the agreement
whenever their operands satisfy it. -/
theorem c10_should_stop_agrees (w : World) :
    (∀ s : Stopper, Stop.should_stop s w = isErr (Stop.check s w))
  ∧ (∀ s : AtomicStop, Stop.should_stop s w = isErr (Stop.check s w))
  ∧ (∀ t : AtomicToken, Stop.should_stop t w = isErr (Stop.check t w))
  ∧ (∀ s : ArcStop, Stop.should_stop s w = isErr (Stop.check s w))
  ∧ (∀ t : ArcToken, Stop.should_stop t w = isErr (Stop.check t w))
  ∧ (∀ s : SyncStop, Stop.should_stop s w = isErr (Stop.check s w))
  ∧ (∀ t : SyncToken, Stop.should_stop t w = isErr (Stop.check t w))
  ∧ (∀ v : Never, Stop.should_stop v w = isErr (Stop.check v w))
  ∧ (∀ t : FfiCancellationToken, Stop.should_stop t w = isErr (Stop.check t w))
  ∧ (∀ tok : CancellationToken, tok.is_stopped w = isErr (tok.checkImpl w))
  ∧ (∀ {α β : Type} [Stop α] [Stop β] (o : OrStop α β),
        Stop.should_stop o.a w = isErr (Stop.check o.a w) →
        Stop.should_stop o.b w = isErr (Stop.check o.b w) →
        Stop.should_stop o w = isErr (Stop.check o w))
  ∧ (∀ {α : Type} [Stop α] (t : WithTimeout α),
        Stop.should_stop t.inner w = isErr (Stop.check t.inner w) →
        Stop.should_stop t w = isErr (Stop.check t w))
  ∧ (∀ t : TreeStopper,
        (∀ p : BoxedStop, t.parent = some p → p.should_stop w = isErr (p.check w)) →
        Stop.should_stop t w = isErr (Stop.check t w)) := by
  have hflag : ∀ fid : FlagId,
      w.flags fid =
        isErr (if w.flags fid then (.error .Cancelled : Except StopReason Unit) else .ok ()) := by
    intro fid
    cases h : w.flags fid <;> simp [h]
  refine ⟨fun s => by simpa using hflag s.fid,
          fun s => by simpa using hflag s.fid,
          fun t => by simpa using hflag t.fid,
          fun s => by simpa using hflag s.fid,
          fun t => by simpa using hflag t.fid,
          fun s => by simpa using hflag s.fid,
          fun t => by simpa using hflag t.fid,
          fun v => rfl,
          ?_, ?_, ?_, ?_, ?_⟩
  · intro t
    cases t with
    | mk inner =>
      cases inner with
      | none => rfl
      | some fid =>
        show w.flags fid = isErr (Stop.check (FfiCancellationToken.mk (some fid)) w)
        cases h : w.flags fid <;> simp [Stop.check, h]
  · intro tok
    unfold CancellationToken.is_stopped CancellationToken.checkImpl
    cases hc : tok.is_source_cancelled w <;> cases hd : tok.is_timed_out w <;> simp [hc, hd]
  · intro α β _ _ o ha hb
    rw [or_should_stop_eq, or_check_eq, ha, hb]
    cases hca : Stop.check o.a w <;> simp
  · intro α _ t hi
    rw [withTimeout_should_stop_eq, withTimeout_check_eq, hi]
    cases hci : Stop.check t.inner w <;> by_cases hd : t.deadline ≤ w.now <;> simp [hd]
  · intro t hp
    rw [tree_should_stop_eq, tree_check_eq]
    unfold TreeStopper.is_cancelled TreeStopper.checkImpl
    cases hf : w.flags t.selfFlag
    · cases hpar : t.parent with
      | none => simp
      | some p => simpa using hp p hpar
    · simp

/-- Witness for c10_should_stop_agrees: the compositional conjuncts applied
to concrete operands whose own agreement is discharged. -/
theorem c10_should_stop_agrees_witness :
    Stop.should_stop (OrStop.new (AtomicToken.mk 0) (AtomicToken.mk 1))
        ⟨fun x => decide (x = 0), 0⟩
      = isErr (Stop.check (OrStop.new (AtomicToken.mk 0) (AtomicToken.mk 1))
        ⟨fun x => decide (x = 0), 0⟩)
  ∧ Stop.should_stop (WithTimeout.mk (AtomicToken.mk 0) 7) ⟨fun x => decide (x = 0), 0⟩
      = isErr (Stop.check (WithTimeout.mk (AtomicToken.mk 0) 7)
        ⟨fun x => decide (x = 0), 0⟩)
  ∧ Stop.should_stop (TreeStopper.new 0) ⟨fun x => decide (x = 0), 0⟩
      = isErr (Stop.check (TreeStopper.new 0) ⟨fun x => decide (x = 0), 0⟩) := by
  obtain ⟨h1, h2, h3, h4, h5, h6, h7, h8, h9, h10, hOr, hWT, hTree⟩ :=
    c10_should_stop_agrees ⟨fun x => decide (x = 0), 0⟩
  refine ⟨hOr (OrStop.new (AtomicToken.mk 0) (AtomicToken.mk 1)) rfl rfl,
          hWT (WithTimeout.mk (AtomicToken.mk 0) 7) rfl,
          hTree (TreeStopper.new 0) ?_⟩
  intro p hp
  cases hp
